import Mathlib

/-!
Verification of the bulk-file-loader orchestration core.

Shallow embedding of the Go sources:
- `internal/downloader/downloader.go` (Downloader.Download, Cancel, handleError,
  handleCancelled, getDownloadPath) and `internal/downloader/progress.go`;
- `internal/scheduler/scheduler.go` (Scheduler.ScheduleProduct, syncProduct,
  ensureDelivery, buildFileID, buildDeliveryID, SyncNow);
- `internal/hooks` (Manager.getWebhooksForEvent, Event builders).

Machine integers are modelled as `Nat`/`Int`; 32-bit words carry an explicit
`% 2^32`.  Bytes are `Nat` values below 256.
-/

namespace BFL

/-! ### SHA-256 (Go `crypto/sha256`) and hex encoding (Go `encoding/hex`)

The downloader streams bytes through `io.MultiWriter(tempFile, hasher)` with
`hasher := sha256.New()` and records `"sha256:" + hex.EncodeToString(hasher.Sum(nil))`.
We embed SHA-256 over byte lists (each byte a `Nat < 256`). -/

/-- Truncate to a 32-bit word. -/
def w32 (x : Nat) : Nat := x % 4294967296

/-- 32-bit right rotation. -/
def rotr32 (n x : Nat) : Nat := w32 ((x >>> n) ||| (x <<< (32 - n)))

/-- 32-bit bitwise complement. -/
def not32 (x : Nat) : Nat := x ^^^ 4294967295

def ch32 (e f g : Nat) : Nat := (e &&& f) ^^^ (not32 e &&& g)

def maj32 (a b c : Nat) : Nat := (a &&& b) ^^^ (a &&& c) ^^^ (b &&& c)

def bigSigma0 (x : Nat) : Nat := rotr32 2 x ^^^ rotr32 13 x ^^^ rotr32 22 x

def bigSigma1 (x : Nat) : Nat := rotr32 6 x ^^^ rotr32 11 x ^^^ rotr32 25 x

def smallSigma0 (x : Nat) : Nat := rotr32 7 x ^^^ rotr32 18 x ^^^ (x >>> 3)

def smallSigma1 (x : Nat) : Nat := rotr32 17 x ^^^ rotr32 19 x ^^^ (x >>> 10)

/-- The 64 SHA-256 round constants, in decimal. -/
def sha256K : List Nat :=
  [1116352408, 1899447441, 3049323471, 3921009573, 961987163,
   1508970993, 2453635748, 2870763221, 3624381080, 310598401,
   607225278, 1426881987, 1925078388, 2162078206, 2614888103,
   3248222580, 3835390401, 4022224774, 264347078, 604807628,
   770255983, 1249150122, 1555081692, 1996064986, 2554220882,
   2821834349, 2952996808, 3210313671, 3336571891, 3584528711,
   113926993, 338241895, 666307205, 773529912, 1294757372,
   1396182291, 1695183700, 1986661051, 2177026350, 2456956037,
   2730485921, 2820302411, 3259730800, 3345764771, 3516065817,
   3600352804, 4094571909, 275423344, 430227734, 506948616,
   659060556, 883997877, 958139571, 1322822218, 1537002063,
   1747873779, 1955562222, 2024104815, 2227730452, 2361852424,
   2428436474, 2756734187, 3204031479, 3329325298]

/-- `n` bytes of `v`, big-endian (most significant byte first). -/
def beBytes : Nat → Nat → List Nat
  | 0, _ => []
  | n + 1, v => beBytes n (v / 256) ++ [v % 256]

/-- SHA-256 padding: append `0x80`, zero bytes, and the 64-bit big-endian
bit length, to a multiple of 64 bytes. -/
def sha256Pad (ms : List Nat) : List Nat :=
  let L := ms.length
  let k := (119 - L % 64) % 64
  ms ++ [0x80] ++ List.replicate k 0 ++ beBytes 8 (8 * L)

/-- Group 4 big-endian bytes into a 32-bit word, over the whole list. -/
def wordsOfBytes : List Nat → List Nat
  | b0 :: b1 :: b2 :: b3 :: rest =>
      (((b0 * 256 + b1) * 256 + b2) * 256 + b3) :: wordsOfBytes rest
  | _ => []

/-- Split into 64-byte blocks: accumulate the current block in reverse. -/
def chunks64Go (cur : List Nat) (curLen : Nat) : List Nat → List (List Nat)
  | [] => if cur.isEmpty then [] else [cur.reverse]
  | b :: bs =>
      if curLen = 63 then (b :: cur).reverse :: chunks64Go [] 0 bs
      else chunks64Go (b :: cur) (curLen + 1) bs

/-- Split into 64-byte blocks. -/
def chunks64 (l : List Nat) : List (List Nat) := chunks64Go [] 0 l

/-- Extend the 16-word message schedule by `n` further words. -/
def extendSchedule : List Nat → Nat → List Nat
  | w, 0 => w
  | w, n + 1 =>
      let i := w.length
      let wi := w32 (w.getD (i - 16) 0 + smallSigma0 (w.getD (i - 15) 0) +
                     w.getD (i - 7) 0 + smallSigma1 (w.getD (i - 2) 0))
      extendSchedule (w ++ [wi]) n

/-- The eight 32-bit working variables of the SHA-256 compression function. -/
structure Sha256State where
  a : Nat
  b : Nat
  c : Nat
  d : Nat
  e : Nat
  f : Nat
  g : Nat
  h : Nat
deriving Repr, DecidableEq

/-- Initial hash value. -/
def sha256Init : Sha256State :=
  ⟨1779033703, 3144134277, 1013904242, 2773480762,
   1359893119, 2600822924, 528734635, 1541459225⟩

/-- One round of the compression function, consuming a (constant, scheduled word) pair. -/
def sha256Round (st : Sha256State) (kw : Nat × Nat) : Sha256State :=
  let t1 := w32 (st.h + bigSigma1 st.e + ch32 st.e st.f st.g + kw.1 + kw.2)
  let t2 := w32 (bigSigma0 st.a + maj32 st.a st.b st.c)
  ⟨w32 (t1 + t2), st.a, st.b, st.c, w32 (st.d + t1), st.e, st.f, st.g⟩

/-- Process one 64-byte block. -/
def sha256Block (h0 : Sha256State) (block : List Nat) : Sha256State :=
  let w := extendSchedule (wordsOfBytes block) 48
  let st := (sha256K.zip w).foldl sha256Round h0
  ⟨w32 (h0.a + st.a), w32 (h0.b + st.b), w32 (h0.c + st.c), w32 (h0.d + st.d),
   w32 (h0.e + st.e), w32 (h0.f + st.f), w32 (h0.g + st.g), w32 (h0.h + st.h)⟩

/-- SHA-256 digest of a byte list, as 32 bytes. -/
def sha256Bytes (ms : List Nat) : List Nat :=
  let st := (chunks64 (sha256Pad ms)).foldl sha256Block sha256Init
  beBytes 4 st.a ++ beBytes 4 st.b ++ beBytes 4 st.c ++ beBytes 4 st.d ++
  beBytes 4 st.e ++ beBytes 4 st.f ++ beBytes 4 st.g ++ beBytes 4 st.h

/-- Lowercase hex digit. -/
def hexChar (n : Nat) : Char := if n < 10 then Char.ofNat (48 + n) else Char.ofNat (87 + n)

/-- Lowercase hex encoding of a byte list (Go `hex.EncodeToString`). -/
def hexEncode (bs : List Nat) : String :=
  String.mk (bs.foldr (fun b acc => hexChar (b / 16) :: hexChar (b % 16) :: acc) [])

/-- Hex-encoded SHA-256 digest. -/
def sha256Hex (ms : List Nat) : String := hexEncode (sha256Bytes ms)

/-! ### Events (`internal/hooks/events.go`) -/

def EventFileAvailable : String := "file.available"

def EventDownloadStarted : String := "download.started"

def EventDownloadCompleted : String := "download.completed"

def EventDownloadFailed : String := "download.failed"

def EventDownloadCancelled : String := "download.cancelled"

def EventSyncCompleted : String := "sync.completed"

def EventSyncFailed : String := "sync.failed"

/-- File payload of an event (`hooks.File`). -/
structure EventFile where
  id : String
  name : String
  size : Int
  checksum : String
  path : String
deriving Repr, DecidableEq

/-- Error payload of an event (`hooks.Error`). -/
structure EventError where
  code : String
  message : String
deriving Repr, DecidableEq

/-- A lifecycle event (`hooks.Event`); the timestamp is not modelled. -/
structure Event where
  type : String
  source : String
  product : Option (String × String) := none
  delivery : Option (String × String) := none
  file : Option EventFile := none
  error : Option EventError := none
deriving Repr, DecidableEq

/-- `hooks.NewEvent`. -/
def NewEvent (eventType source : String) : Event := { type := eventType, source := source }

/-- `Event.WithProduct`. -/
def Event.withProduct (e : Event) (id name : String) : Event := { e with product := some (id, name) }

/-- `Event.WithDelivery`. -/
def Event.withDelivery (e : Event) (id name : String) : Event := { e with delivery := some (id, name) }

/-- `Event.WithFile`. -/
def Event.withFile (e : Event) (id name : String) (size : Int) (checksum path : String) : Event :=
  { e with file := some { id := id, name := name, size := size, checksum := checksum, path := path } }

/-- `Event.WithError`. -/
def Event.withError (e : Event) (code message : String) : Event :=
  { e with error := some { code := code, message := message } }

/-! ### Database rows used by the downloader and scheduler (`internal/database`) -/

/-- `database.File` (fields read by the downloader and created by the scheduler). -/
structure DBFile where
  id : String
  deliveryID : String
  productID : String
  sourceID : String
  externalID : String
  fileName : String
  fileSize : Int
  expectedChecksum : String
  checksumAlgorithm : String
  downloadURI : String
  skipped : Bool := false
deriving Repr, DecidableEq

/-- `database.DownloadEntry` status strings. -/
inductive DownloadStatus
  | pending
  | downloading
  | completed
  | failed
  | cancelled
deriving Repr, DecidableEq

/-- `database.DownloadEntry`; `id` models the auto-assigned primary key,
timestamps are not modelled. -/
structure DownloadEntry where
  id : Nat
  fileID : String
  status : DownloadStatus
  progress : Int := 0
  totalBytes : Int := 0
  localPath : String := ""
  localChecksum : String := ""
  errorMessage : String := ""
deriving Repr, DecidableEq

/-- `db.Save(entry)`: overwrite the row with the entry's primary key. -/
def saveEntry (es : List DownloadEntry) (e : DownloadEntry) : List DownloadEntry :=
  es.map (fun x => if x.id = e.id then e else x)

/-! ### Filesystem model

Regular files only: a map from path to byte content, plus a trace of the
filesystem effects the downloader applies. -/

/-- File store: association list from path to bytes (newest binding first). -/
abbrev Fs : Type := List (String × List Nat)

/-- Read a file's bytes. -/
def Fs.read (fs : Fs) (p : String) : Option (List Nat) :=
  (List.find? (fun e => e.1 == p) fs).map Prod.snd

/-- Write (create or truncate-and-write) a file. -/
def Fs.write (fs : Fs) (p : String) (bs : List Nat) : Fs :=
  (p, bs) :: List.filter (fun e => e.1 != p) fs

/-- `os.Remove`. -/
def Fs.remove (fs : Fs) (p : String) : Fs :=
  List.filter (fun e => e.1 != p) fs

/-- `os.Rename src dst` (atomic replace). -/
def Fs.rename (fs : Fs) (src dst : String) : Fs :=
  match fs.read src with
  | some bs => (fs.remove src).write dst bs
  | none => fs

/-- Trace of applied filesystem effects. -/
inductive FsOp
  | mkdirAll (dir : String)
  | createFile (path : String)
  | writeBytes (path : String) (bytes : List Nat)
  | removeFile (path : String)
  | renameFile (src dst : String)
deriving Repr, DecidableEq

/-- Trace of progress-tracker calls (`progress.go` Start/Update/Complete). -/
inductive ProgressOp
  | start (fileID fileName : String) (total : Int)
  | update (fileID : String) (bytes total : Int)
  | complete (fileID : String)
deriving Repr, DecidableEq

/-! ### Downloader (`internal/downloader/downloader.go`) -/

/-- `config.Config` fields the downloader reads. -/
structure Config where
  dataDir : String
  maxConcurrent : Nat
  downloadTimeout : Nat
deriving Repr, DecidableEq

/-- `Config.DownloadsPath()`. -/
def Config.downloadsPath (c : Config) : String := c.dataDir ++ "/downloads"

/-- `Downloader.getDownloadPath`: data dir, then `downloads`, source id,
product id, file name. -/
def getDownloadPath (cfg : Config) (f : DBFile) : String :=
  cfg.downloadsPath ++ "/" ++ f.sourceID ++ "/" ++ f.productID ++ "/" ++ f.fileName

/-- `filepath.Dir`: the path up to the last separator. -/
def parentDir (p : String) : String :=
  String.intercalate "/" ((p.splitOn "/").dropLast)

/-- `context` errors distinguished at downloader.go line 147. -/
inductive CtxErr
  | canceled
  | deadlineExceeded
deriving Repr, DecidableEq

/-- Return value of `Downloader.Download`. -/
inductive DownloadResult
  | ok
  | errInProgress
  | errFileNotFound
  | errSourceNotFound
  | errCtx (e : CtxErr)
  | errWrapped (message : String)
deriving Repr, DecidableEq

/-- Outcome of the blocking `adapter.DownloadFile` call, together with the
value `ctx.Err()` holds when the downloader inspects it afterwards. -/
inductive AdapterOutcome
  | success
  | failure (msg : String) (ctxErr : Option CtxErr)
deriving Repr, DecidableEq

/-- Shared mutable state a single `Download` invocation reads and writes:
persisted rows, emitted events, the filesystem, and the in-flight registry. -/
structure DownloaderState where
  entries : List DownloadEntry
  nextEntryID : Nat
  events : List Event
  fs : Fs
  fsOps : List FsOp
  progressOps : List ProgressOp
  activeIDs : List String
deriving Repr, DecidableEq

/-- One `Download(ctx, fileID)` invocation: the call's environment —
what the database lookup returns, whether the registry has an adapter,
how the semaphore wait resolves, how each filesystem step and the
adapter transfer turn out. -/
structure DownloadCall where
  fileID : String
  dbFile : Option DBFile
  adapterRegistered : Bool
  slotAvailableFirst : Bool
  waitCtxErr : CtxErr
  mkdirOk : Bool
  createTempOk : Bool
  fsErrMsg : String
  adapterBytes : List Nat
  progressCalls : List (Int × Int)
  outcome : AdapterOutcome
  renameOk : Bool
deriving Repr, DecidableEq

/-- `Downloader.handleError` (downloader.go lines 207-218). -/
def handleError (entry : DownloadEntry) (file : DBFile) (code message errText : String)
    (st : DownloaderState) : DownloadResult × DownloaderState :=
  let errorMessage := message ++ ": " ++ errText
  let e := { entry with status := DownloadStatus.failed, errorMessage := errorMessage }
  let ev := ((NewEvent EventDownloadFailed file.sourceID).withFile
      file.id file.fileName file.fileSize "" "").withError code errorMessage
  (DownloadResult.errWrapped errorMessage,
   { st with entries := saveEntry st.entries e, events := st.events ++ [ev] })

/-- `Downloader.handleCancelled` (downloader.go lines 220-229). -/
def handleCancelled (entry : DownloadEntry) (file : DBFile)
    (st : DownloaderState) : DownloadResult × DownloaderState :=
  let e := { entry with status := DownloadStatus.cancelled }
  let ev := (NewEvent EventDownloadCancelled file.sourceID).withFile
      file.id file.fileName file.fileSize "" ""
  (DownloadResult.errCtx CtxErr.canceled,
   { st with entries := saveEntry st.entries e, events := st.events ++ [ev] })

/-- One progress callback (downloader.go lines 134-141): update the tracker,
then persist the byte counters on the entry. -/
def applyProgress (fid : String) (acc : DownloadEntry × DownloaderState)
    (pc : Int × Int) : DownloadEntry × DownloaderState :=
  let e := { acc.1 with progress := pc.1, totalBytes := pc.2 }
  (e, { acc.2 with
          progressOps := acc.2.progressOps ++ [ProgressOp.update fid pc.1 pc.2],
          entries := saveEntry acc.2.entries e })

/-- Lines 103-176 of downloader.go: everything after the DownloadEntry row is
created and `download.started` is emitted.  `entry0` is the freshly created
row in "downloading" state. -/
def downloadTransfer (cfg : Config) (c : DownloadCall) (file : DBFile)
    (entry0 : DownloadEntry) (st : DownloaderState) : DownloadResult × DownloaderState :=
  let downloadPath := getDownloadPath cfg file
  let st := { st with fsOps := st.fsOps ++ [FsOp.mkdirAll (parentDir downloadPath)] }
  if !c.mkdirOk then
    handleError entry0 file "FILESYSTEM_ERROR" "Failed to create directory" c.fsErrMsg st
  else
    let tempPath := downloadPath ++ ".tmp"
    if !c.createTempOk then
      handleError entry0 file "FILESYSTEM_ERROR" "Failed to create temp file" c.fsErrMsg st
    else
      let st := { st with fs := st.fs.write tempPath [],
                          fsOps := st.fsOps ++ [FsOp.createFile tempPath] }
      let st := { st with progressOps := st.progressOps ++
                    [ProgressOp.start c.fileID file.fileName file.fileSize] }
      let st := { st with fs := st.fs.write tempPath c.adapterBytes,
                          fsOps := st.fsOps ++ [FsOp.writeBytes tempPath c.adapterBytes] }
      let done := c.progressCalls.foldl (applyProgress c.fileID) (entry0, st)
      let entry1 := done.1
      let st := done.2
      match c.outcome with
      | AdapterOutcome.failure msg ctxErr =>
          let st := { st with fs := st.fs.remove tempPath,
                              fsOps := st.fsOps ++ [FsOp.removeFile tempPath] }
          let r := if ctxErr = some CtxErr.canceled then handleCancelled entry1 file st
                   else handleError entry1 file "DOWNLOAD_ERROR" "Download failed" msg st
          (r.1, { r.2 with progressOps := r.2.progressOps ++ [ProgressOp.complete c.fileID] })
      | AdapterOutcome.success =>
          if !c.renameOk then
            let st := { st with fs := st.fs.remove tempPath,
                                fsOps := st.fsOps ++ [FsOp.removeFile tempPath] }
            let r := handleError entry1 file "FILESYSTEM_ERROR" "Failed to move file" c.fsErrMsg st
            (r.1, { r.2 with progressOps := r.2.progressOps ++ [ProgressOp.complete c.fileID] })
          else
            let st := { st with fs := st.fs.rename tempPath downloadPath,
                                fsOps := st.fsOps ++ [FsOp.renameFile tempPath downloadPath] }
            let localChecksum := "sha256:" ++ sha256Hex c.adapterBytes
            let entryF := { entry1 with status := DownloadStatus.completed,
                                        localPath := downloadPath,
                                        localChecksum := localChecksum }
            let st := { st with entries := saveEntry st.entries entryF }
            let ev := (NewEvent EventDownloadCompleted file.sourceID).withFile
                file.id file.fileName file.fileSize localChecksum downloadPath
            let st := { st with events := st.events ++ [ev] }
            (DownloadResult.ok,
             { st with progressOps := st.progressOps ++ [ProgressOp.complete c.fileID] })

/-- `Downloader.Download` (downloader.go lines 53-176), sequential run.
The line-75 `active.Store` is paired with the deferred line-77 delete, which
runs on every later exit, so `activeIDs` is unchanged across a full run. -/
def downloadRun (cfg : Config) (c : DownloadCall) (st : DownloaderState) :
    DownloadResult × DownloaderState :=
  if st.activeIDs.contains c.fileID then (DownloadResult.errInProgress, st)
  else match c.dbFile with
    | none => (DownloadResult.errFileNotFound, st)
    | some file =>
      if !c.adapterRegistered then (DownloadResult.errSourceNotFound, st)
      else if !c.slotAvailableFirst then (DownloadResult.errCtx c.waitCtxErr, st)
      else
        let entry0 : DownloadEntry :=
          { id := st.nextEntryID, fileID := c.fileID, status := DownloadStatus.downloading }
        let st := { st with entries := st.entries ++ [entry0],
                            nextEntryID := st.nextEntryID + 1 }
        let startedEv := (NewEvent EventDownloadStarted file.sourceID).withFile
            file.id file.fileName file.fileSize "" ""
        let st := { st with events := st.events ++ [startedEv] }
        downloadTransfer cfg c file entry0 st

/-! ### Interleaving model of the single-flight guard (downloader.go lines 53-75)

Two concurrent `Download` calls for the same file id.  Each caller executes
three atomic steps against the shared `sync.Map`:
pc 0 — the `active.Load` check at line 55;
pc 1 — the database fetch and adapter lookup at lines 60-69 (no registry access);
pc 2 — the `active.Store` at line 75, after which the transfer is underway. -/

/-- Where one caller stands. -/
inductive SFStatus
  | running (pc : Nat)
  | started
  | rejected
deriving Repr, DecidableEq

/-- Shared registry bit (does `active` contain the file id) plus both callers. -/
structure SFSystem where
  registry : Bool
  tasks : List SFStatus
deriving Repr, DecidableEq

def sfSetTask (sys : SFSystem) (i : Nat) (s : SFStatus) : SFSystem :=
  { sys with tasks := sys.tasks.set i s }

/-- Execute one atomic step of caller `i`. -/
def sfStep (sys : SFSystem) (i : Nat) : SFSystem :=
  match sys.tasks.getD i SFStatus.started with
  | SFStatus.running 0 =>
      if sys.registry then sfSetTask sys i SFStatus.rejected
      else sfSetTask sys i (SFStatus.running 1)
  | SFStatus.running 1 => sfSetTask sys i (SFStatus.running 2)
  | SFStatus.running 2 => { sfSetTask sys i SFStatus.started with registry := true }
  | _ => sys

/-- Both callers about to run `Download` on the same id; registry empty. -/
def sfInit : SFSystem := { registry := false, tasks := [SFStatus.running 0, SFStatus.running 0] }

/-- Run a schedule (list of caller indices). -/
def sfRun (sched : List Nat) : SFSystem := sched.foldl sfStep sfInit

/-- Every caller reached a verdict. -/
def sfCompleted (sys : SFSystem) : Prop :=
  ∀ t ∈ sys.tasks, t = SFStatus.started ∨ t = SFStatus.rejected

/-- Exactly one caller started the transfer. -/
def sfExactlyOneStarted (sys : SFSystem) : Prop :=
  (sys.tasks.filter (fun t => t == SFStatus.started)).length = 1

/-- Claim C1 as a proposition over the interleaving model: under every
schedule in which both callers finish, exactly one starts. -/
def singleFlightClaim : Prop :=
  ∀ sched : List Nat, sfCompleted (sfRun sched) → sfExactlyOneStarted (sfRun sched)

/-! ### Sync scheduler (`internal/scheduler/scheduler.go`) -/

/-- `database.Product` fields the scheduler reads/writes. -/
structure ProductRec where
  id : String
  sourceID : String
  externalID : String
  name : String
  autoDownload : Bool
  checkWindowStart : String
  lastChecked : Bool := false
deriving Repr, DecidableEq

/-- `sources.DeliveryInfo` fields the scheduler uses. -/
structure DeliveryInfo where
  externalID : String
  name : String
deriving Repr, DecidableEq

/-- `sources.FileInfo` fields the scheduler uses. -/
structure FileInfo where
  externalID : String
  fileName : String
  fileSize : Int
  checksum : String
  checksumAlgorithm : String
  downloadURI : String
deriving Repr, DecidableEq

/-- `database.Delivery` fields the scheduler writes. -/
structure DeliveryRec where
  id : String
  productID : String
  externalID : String
  name : String
deriving Repr, DecidableEq

/-- `buildDeliveryID` (scheduler.go line 206). -/
def buildDeliveryID (productID deliveryExternalID : String) : String :=
  productID ++ ":" ++ deliveryExternalID

/-- `buildFileID` (scheduler.go line 210). -/
def buildFileID (productID deliveryExternalID fileExternalID : String) : String :=
  productID ++ ":" ++ deliveryExternalID ++ ":" ++ fileExternalID

/-- Persisted state a sync run reads and writes, plus the async downloads it
fires (`go downloader.Download` at line 165). -/
structure SyncState where
  products : List ProductRec
  deliveries : List DeliveryRec
  files : List DBFile
  events : List Event
  downloadsStarted : List String
deriving Repr, DecidableEq

/-- The gorm `Count` over files with a given id (scheduler.go lines 128-129). -/
def countFilesWithID (files : List DBFile) (fileID : String) : Nat :=
  (files.filter (fun f => f.id == fileID)).length

/-- `Scheduler.ensureDelivery` (scheduler.go lines 182-198). -/
def ensureDelivery (deliveryID productID : String) (info : DeliveryInfo)
    (st : SyncState) : SyncState :=
  if (st.deliveries.filter (fun d => d.id == deliveryID)).length > 0 then st
  else { st with deliveries := st.deliveries ++
          [{ id := deliveryID, productID := productID,
             externalID := info.externalID, name := info.name }] }

/-- The per-file body of `syncProduct` (scheduler.go lines 126-171). -/
def syncFile (product : ProductRec) (d : DeliveryInfo) (fi : FileInfo)
    (st : SyncState) : SyncState :=
  let fileID := buildFileID product.id d.externalID fi.externalID
  if countFilesWithID st.files fileID > 0 then st
  else
    let deliveryID := buildDeliveryID product.id d.externalID
    let file : DBFile :=
      { id := fileID, deliveryID := deliveryID, productID := product.id,
        sourceID := product.sourceID, externalID := fi.externalID,
        fileName := fi.fileName, fileSize := fi.fileSize,
        expectedChecksum := fi.checksum, checksumAlgorithm := fi.checksumAlgorithm,
        downloadURI := fi.downloadURI }
    let st := ensureDelivery deliveryID product.id d st
    let st := { st with files := st.files ++ [file] }
    let ev := (((NewEvent EventFileAvailable product.sourceID).withProduct
        product.id product.name).withDelivery deliveryID d.name).withFile
        fileID fi.fileName fi.fileSize fi.checksum ""
    let st := { st with events := st.events ++ [ev] }
    if product.autoDownload && !file.skipped then
      { st with downloadsStarted := st.downloadsStarted ++ [fileID] }
    else st

/-- `Scheduler.emitSyncFailed` (scheduler.go lines 200-204). -/
def syncFailedEvent (sourceID errMsg : String) : Event :=
  (NewEvent EventSyncFailed sourceID).withError "SYNC_ERROR" errMsg

/-- `Scheduler.syncProduct` (scheduler.go lines 95-180).  The adapter's
behaviour is the `fetch` argument: either the delivery enumeration fails, or
it yields each delivery paired with its own file-enumeration result. -/
def syncProduct (productID : String) (adapterRegistered : Bool)
    (fetch : Except String (List (DeliveryInfo × Except String (List FileInfo))))
    (st : SyncState) : SyncState :=
  match st.products.find? (fun p => p.id == productID) with
  | none => st
  | some product =>
    if !adapterRegistered then st
    else match fetch with
    | Except.error e =>
        { st with events := st.events ++ [syncFailedEvent product.sourceID e] }
    | Except.ok ds =>
        let st := ds.foldl (fun st1 d =>
          match d.2 with
          | Except.error _ => st1
          | Except.ok fs => fs.foldl (fun st2 fi => syncFile product d.1 fi st2) st1) st
        let st := { st with products := st.products.map (fun (p : ProductRec) =>
          if p.id == productID then { p with lastChecked := true } else p) }
        { st with events := st.events ++
            [(NewEvent EventSyncCompleted product.sourceID).withProduct productID product.name] }

/-- A task detached with `go` by the scheduler. -/
inductive SchedTask
  | runSync (productID : String)
deriving Repr, DecidableEq

/-- `Scheduler.SyncNow` (scheduler.go lines 214-217): detach the sync as a
background task and return nil.  Nothing is read or written synchronously. -/
def SyncNow (productID : String) (st : SyncState) :
    Option String × SyncState × List SchedTask :=
  (none, st, [SchedTask.runSync productID])

/-! ### Scheduler trigger registry (`Scheduler.ScheduleProduct`, lines 45-68)

The cron collaborator (`robfig/cron`) is not part of this repository; it is
modelled as a registry of (entry id, expression) pairs with fresh ids, and a
`valid` predicate standing for its expression parser: `AddFunc` errors exactly
on expressions the parser rejects. -/

/-- One installed cron entry. -/
structure CronEntry where
  entryID : Nat
  expr : String
deriving Repr, DecidableEq

/-- Scheduler registration state: cron entries, the fresh-id counter, and the
`entryIDs` map keyed by product id. -/
structure SchedulerReg where
  cronEntries : List CronEntry
  nextEntryID : Nat
  entryIDs : List (String × Nat)
deriving Repr, DecidableEq

/-- Lines 49-52 of `ScheduleProduct` (also the body of `UnscheduleProduct`,
lines 70-78): drop the existing registration for the product, if any. -/
def removeProductReg (productID : String) (st : SchedulerReg) : SchedulerReg :=
  match st.entryIDs.find? (fun kv => kv.1 == productID) with
  | some kv =>
      { st with cronEntries := st.cronEntries.filter (fun e => e.entryID != kv.2),
                entryIDs := st.entryIDs.filter (fun kv2 => kv2.1 != productID) }
  | none => st

/-- `Scheduler.ScheduleProduct`: remove any existing registration for the
product, then install the new one unless the expression is empty; an invalid
expression is an error (after the removal). -/
def ScheduleProduct (valid : String → Bool) (productID expr : String)
    (st : SchedulerReg) : Except String SchedulerReg :=
  let st1 := removeProductReg productID st
  if expr == "" then Except.ok st1
  else if valid expr then
    Except.ok { cronEntries := st1.cronEntries ++ [{ entryID := st1.nextEntryID, expr := expr }],
                nextEntryID := st1.nextEntryID + 1,
                entryIDs := st1.entryIDs ++ [(productID, st1.nextEntryID)] }
  else Except.error "invalid cron expression"

/-- The active registrations held for a product: expressions of cron entries
reachable through the `entryIDs` map. -/
def productRegs (st : SchedulerReg) (productID : String) : List String :=
  (st.entryIDs.filter (fun kv => kv.1 == productID)).flatMap
    (fun kv => (st.cronEntries.filter (fun e => e.entryID == kv.2)).map CronEntry.expr)

/-- Well-formedness the scheduler maintains: the map has one binding per
product, cron entry ids are distinct, and the counter is fresh. -/
def SchedulerReg.wf (st : SchedulerReg) : Prop :=
  (st.entryIDs.map Prod.fst).Nodup ∧
  (st.cronEntries.map CronEntry.entryID).Nodup ∧
  (∀ e ∈ st.cronEntries, e.entryID < st.nextEntryID) ∧
  (∀ kv ∈ st.entryIDs, kv.2 < st.nextEntryID)

/-! ### Webhook selection (`internal/hooks/manager.go`) -/

/-- `database.Webhook`: the stored `Events` JSON is modelled post-parse —
`none` stands for a blob `json.Unmarshal` rejects (such a webhook is skipped
at line 379-381 of the manager). -/
structure Webhook where
  whID : Nat
  name : String
  url : String
  events : Option (List String)
  enabled : Bool
deriving Repr, DecidableEq

/-- `Manager.getWebhooksForEvent` (manager.go lines 370-390): the db query
keeps enabled webhooks, then the loop keeps those whose subscription list
contains the event type or the wildcard. -/
def getWebhooksForEvent (webhooks : List Webhook) (eventType : String) : List Webhook :=
  (webhooks.filter (fun wh => wh.enabled)).filter (fun wh =>
    match wh.events with
    | none => false
    | some evs => evs.any (fun e => e == eventType || e == "*"))

/-! ### Concrete fixtures used by counterexamples and witnesses -/

/-- A configuration with the defaults of `config.Load`. -/
def cexCfg : Config := { dataDir := "./data", maxConcurrent := 3, downloadTimeout := 3600 }

/-- A file row whose declared checksum algorithm is `md5`. -/
def cexFile : DBFile :=
  { id := "P:D:F", deliveryID := "P:D", productID := "P", sourceID := "S",
    externalID := "F", fileName := "a.zip", fileSize := 3,
    expectedChecksum := "900150983cd24fb0d6963f7d28e17f72", checksumAlgorithm := "md5",
    downloadURI := "http://remote/a.zip" }

/-- An idle downloader: no rows, no events, empty filesystem, empty registry. -/
def cexSt : DownloaderState :=
  { entries := [], nextEntryID := 1, events := [], fs := [], fsOps := [],
    progressOps := [], activeIDs := [] }

/-- A download of `cexFile` in which every step succeeds and the adapter
streams the three bytes `"abc"`. -/
def cexCall : DownloadCall :=
  { fileID := "P:D:F", dbFile := some cexFile, adapterRegistered := true,
    slotAvailableFirst := true, waitCtxErr := CtxErr.canceled,
    mkdirOk := true, createTempOk := true, fsErrMsg := "",
    adapterBytes := [0x61, 0x62, 0x63], progressCalls := [(1, 3), (3, 3)],
    outcome := AdapterOutcome.success, renameOk := true }

/-- The same download, but the adapter call fails because the configured
timeout elapsed: `ctx.Err()` is `context.DeadlineExceeded`. -/
def cexTimeoutCall : DownloadCall :=
  { cexCall with outcome :=
      AdapterOutcome.failure "context deadline exceeded" (some CtxErr.deadlineExceeded) }

/-- The same download, but cancelled: `ctx.Err()` is `context.Canceled`. -/
def cexCancelCall : DownloadCall :=
  { cexCall with outcome :=
      AdapterOutcome.failure "context canceled" (some CtxErr.canceled) }

/-- The same download, but the context is cancelled while the call is still
waiting for a semaphore slot. -/
def cexWaitCall : DownloadCall := { cexCall with slotAvailableFirst := false }

/-- A product configured for automatic download. -/
def wProd : ProductRec :=
  { id := "P", sourceID := "S", externalID := "px", name := "Prod",
    autoDownload := true, checkWindowStart := "0 6 * * *" }

/-- One delivery of `wProd`. -/
def wDel : DeliveryInfo := { externalID := "D1", name := "Del1" }

/-- A remote file of `wDel` named by its external id. -/
def wFi (n : String) : FileInfo :=
  { externalID := n, fileName := n ++ ".zip", fileSize := 1, checksum := "c",
    checksumAlgorithm := "sha256", downloadURI := "u" }

/-- The file `f1` of `wDel`, already persisted from an earlier sync. -/
def wKnownFile : DBFile :=
  { id := buildFileID "P" "D1" "f1", deliveryID := buildDeliveryID "P" "D1",
    productID := "P", sourceID := "S", externalID := "f1", fileName := "f1.zip",
    fileSize := 1, expectedChecksum := "c", checksumAlgorithm := "sha256",
    downloadURI := "u" }

/-- Store state before a sync of `wProd`: one file already known. -/
def wSyncSt : SyncState :=
  { products := [wProd], deliveries := [], files := [wKnownFile], events := [],
    downloadsStarted := [] }

/-! ## Theorems -/

/-- An interleaving in which caller 0 and caller 1 alternate: both runs of the
line-55 check see an empty registry, so the non-atomic check/store pair lets
both callers through. -/
theorem sfRun_alternating_both_start :
    (sfRun [0, 1, 0, 1, 0, 1]).tasks = [SFStatus.started, SFStatus.started] := by decide

/-- When one caller finishes its check/store before the other checks, the
other is rejected — the behaviour `TestDownloadInProgress` observes. -/
theorem sfRun_sequential_rejects_second :
    (sfRun [0, 0, 0, 1, 1, 1]).tasks = [SFStatus.started, SFStatus.rejected] := by decide

/-- Claim C1: the single-flight guard in `Downloader.Download` is a `Load` at line
55 followed by a separate `Store` at line 75, not an atomic insert-if-absent.
Under the alternating schedule both concurrent callers pass the check before
either stores, so both start the transfer and neither returns
`ErrDownloadInProgress` — refuting "exactly one succeeds in starting". -/
theorem download_singleFlight_race_cex :
    (sfRun [0, 1, 0, 1, 0, 1]).tasks = [SFStatus.started, SFStatus.started] ∧
    sfCompleted (sfRun [0, 1, 0, 1, 0, 1]) ∧
    ¬ sfExactlyOneStarted (sfRun [0, 1, 0, 1, 0, 1]) ∧
    ¬ singleFlightClaim := by
  refine ⟨by decide, by unfold sfCompleted; decide, by unfold sfExactlyOneStarted; decide,
    fun h => ?_⟩
  exact absurd (h [0, 1, 0, 1, 0, 1] (by unfold sfCompleted; decide))
    (by unfold sfExactlyOneStarted; decide)

/-- Claim C8: an emitted event is delivered exactly to the enabled webhooks whose
parsed subscription list contains the event's type or the wildcard `"*"`;
in particular a disabled webhook is never selected, and a webhook whose
stored subscription JSON does not parse is never selected. -/
theorem webhook_selection_exact (webhooks : List Webhook) (eventType : String) (wh : Webhook) :
    wh ∈ getWebhooksForEvent webhooks eventType ↔
      wh ∈ webhooks ∧ wh.enabled = true ∧
      ∃ evs, wh.events = some evs ∧ (eventType ∈ evs ∨ "*" ∈ evs) := by
  unfold getWebhooksForEvent
  rw [List.mem_filter, List.mem_filter]
  constructor
  · rintro ⟨⟨hmem, hen⟩, hmatch⟩
    refine ⟨hmem, hen, ?_⟩
    cases hevs : wh.events with
    | none => rw [hevs] at hmatch; simp at hmatch
    | some evs =>
        rw [hevs] at hmatch
        simp only [List.any_eq_true, Bool.or_eq_true, beq_iff_eq] at hmatch
        obtain ⟨e, he, h⟩ := hmatch
        exact ⟨evs, rfl, h.elim (fun h' => Or.inl (h' ▸ he)) (fun h' => Or.inr (h' ▸ he))⟩
  · rintro ⟨hmem, hen, evs, hevs, hcase⟩
    refine ⟨⟨hmem, hen⟩, ?_⟩
    rw [hevs]
    simp only [List.any_eq_true, Bool.or_eq_true, beq_iff_eq]
    cases hcase with
    | inl h => exact ⟨eventType, h, Or.inl rfl⟩
    | inr h => exact ⟨"*", h, Or.inr rfl⟩

/-- Claim C10: `SyncNow` detaches the sync as a background task and returns nil for
every product id — also for ids with no persisted Product, since nothing is
read synchronously: the state is returned untouched and the failure handling
happens later inside the detached `syncProduct` run. -/
theorem syncNow_returns_nil (productID : String) (st : SyncState) :
    (SyncNow productID st).1 = none ∧ (SyncNow productID st).2.1 = st ∧
    (SyncNow productID st).2.2 = [SchedTask.runSync productID] :=
  ⟨rfl, rfl, rfl⟩

/-- Claim C7: when the adapter's delivery enumeration fails, the sync run appends
exactly one `sync.failed` event and changes nothing else — zero File and zero
Delivery writes, no `sync.completed`, no downloads started; and a failing
file enumeration for one delivery is dropped from the run without affecting
the processing of the remaining deliveries. -/
theorem syncProduct_deliveries_failure_isolated
    (productID : String) (st : SyncState) (product : ProductRec)
    (hfind : st.products.find? (fun p => p.id == productID) = some product) :
    (∀ e, syncProduct productID true (Except.error e) st =
        { st with events := st.events ++ [syncFailedEvent product.sourceID e] }) ∧
    (∀ (ds1 ds2 : List (DeliveryInfo × Except String (List FileInfo)))
       (d : DeliveryInfo) (e : String),
      syncProduct productID true (Except.ok (ds1 ++ (d, Except.error e) :: ds2)) st =
        syncProduct productID true (Except.ok (ds1 ++ ds2)) st) := by
  constructor
  · intro e
    unfold syncProduct
    rw [hfind]
    rfl
  · intro ds1 ds2 d e
    unfold syncProduct
    rw [hfind]
    simp [List.foldl_append]

/-- Witness for C7 at a concrete store: delivery enumeration failing with
"boom" appends exactly the one `sync.failed` event, and an errored delivery
in the middle of a batch is skipped. -/
theorem syncProduct_deliveries_failure_isolated_witness :
    syncProduct "P" true (Except.error "boom") wSyncSt =
      { wSyncSt with events := wSyncSt.events ++ [syncFailedEvent wProd.sourceID "boom"] } ∧
    syncProduct "P" true
        (Except.ok [(wDel, Except.error "bad"), (wDel, Except.ok [wFi "f9"])]) wSyncSt =
      syncProduct "P" true (Except.ok [(wDel, Except.ok [wFi "f9"])]) wSyncSt := by
  have h := syncProduct_deliveries_failure_isolated "P" wSyncSt wProd (by rfl)
  exact ⟨h.1 "boom", h.2 [] [(wDel, Except.ok [wFi "f9"])] wDel "bad"⟩

/-! Supporting lemmas for the scheduler trigger registry (C9). -/

theorem removeProductReg_nextEntryID (pid : String) (st : SchedulerReg) :
    (removeProductReg pid st).nextEntryID = st.nextEntryID := by
  unfold removeProductReg
  cases st.entryIDs.find? (fun kv => kv.1 == pid) <;> rfl

theorem removeProductReg_no_pid (pid : String) (st : SchedulerReg) :
    (removeProductReg pid st).entryIDs.filter (fun kv => kv.1 == pid) = [] := by
  unfold removeProductReg
  cases hf : st.entryIDs.find? (fun kv => kv.1 == pid) with
  | none =>
      simp only
      exact List.filter_eq_nil_iff.mpr (List.find?_eq_none.mp hf)
  | some kv =>
      simp only
      rw [List.filter_filter]
      refine List.filter_eq_nil_iff.mpr (fun kv2 _ => ?_)
      by_cases h : kv2.1 = pid <;> simp [h]

theorem removeProductReg_mem_entryIDs {pid : String} {st : SchedulerReg} {kv : String × Nat}
    (h : kv ∈ (removeProductReg pid st).entryIDs) : kv ∈ st.entryIDs := by
  unfold removeProductReg at h
  cases hf : st.entryIDs.find? (fun kv => kv.1 == pid) <;> rw [hf] at h
  · exact h
  · exact (List.mem_filter.mp h).1

theorem removeProductReg_mem_cron {pid : String} {st : SchedulerReg} {e : CronEntry}
    (h : e ∈ (removeProductReg pid st).cronEntries) : e ∈ st.cronEntries := by
  unfold removeProductReg at h
  cases hf : st.entryIDs.find? (fun kv => kv.1 == pid) <;> rw [hf] at h
  · exact h
  · exact (List.mem_filter.mp h).1

theorem removeProductReg_keys_sublist (pid : String) (st : SchedulerReg) :
    ((removeProductReg pid st).entryIDs.map Prod.fst).Sublist (st.entryIDs.map Prod.fst) := by
  unfold removeProductReg
  cases st.entryIDs.find? (fun kv => kv.1 == pid) with
  | none => exact List.Sublist.refl _
  | some kv => exact (List.filter_sublist _).map Prod.fst

theorem removeProductReg_ids_sublist (pid : String) (st : SchedulerReg) :
    ((removeProductReg pid st).cronEntries.map CronEntry.entryID).Sublist
      (st.cronEntries.map CronEntry.entryID) := by
  unfold removeProductReg
  cases st.entryIDs.find? (fun kv => kv.1 == pid) with
  | none => exact List.Sublist.refl _
  | some kv => exact (List.filter_sublist _).map CronEntry.entryID

theorem removeProductReg_wf {pid : String} {st : SchedulerReg} (h : st.wf) :
    (removeProductReg pid st).wf := by
  obtain ⟨h1, h2, h3, h4⟩ := h
  refine ⟨(removeProductReg_keys_sublist pid st).nodup h1,
          (removeProductReg_ids_sublist pid st).nodup h2, ?_, ?_⟩
  · intro e he
    rw [removeProductReg_nextEntryID]
    exact h3 e (removeProductReg_mem_cron he)
  · intro kv hkv
    rw [removeProductReg_nextEntryID]
    exact h4 kv (removeProductReg_mem_entryIDs hkv)

theorem scheduleProduct_nonempty (valid : String → Bool) (pid e : String) (st : SchedulerReg)
    (hwf : st.wf) (hv : valid e = true) (hne : e ≠ "") :
    ∃ st2, ScheduleProduct valid pid e st = Except.ok st2 ∧
      productRegs st2 pid = [e] ∧ st2.wf := by
  have hbeq : (e == "") = false := by simpa using hne
  have hwfR : (removeProductReg pid st).wf := removeProductReg_wf hwf
  have hnoPid := removeProductReg_no_pid pid st
  have hpidNotMem : ∀ kv ∈ (removeProductReg pid st).entryIDs, (kv.1 == pid) = false := by
    intro kv hkv
    have := List.filter_eq_nil_iff.mp hnoPid kv hkv
    simpa using this
  have hfreshCron : ∀ c ∈ (removeProductReg pid st).cronEntries,
      (c.entryID == (removeProductReg pid st).nextEntryID) = false := by
    intro c hc
    simpa using Nat.ne_of_lt (hwfR.2.2.1 c hc)
  have hcronFilter : (removeProductReg pid st).cronEntries.filter
      (fun c => c.entryID == (removeProductReg pid st).nextEntryID) = [] :=
    List.filter_eq_nil_iff.mpr (fun c hc => by simp [hfreshCron c hc])
  refine ⟨{ cronEntries := (removeProductReg pid st).cronEntries ++
              [{ entryID := (removeProductReg pid st).nextEntryID, expr := e }],
            nextEntryID := (removeProductReg pid st).nextEntryID + 1,
            entryIDs := (removeProductReg pid st).entryIDs ++
              [(pid, (removeProductReg pid st).nextEntryID)] },
          by unfold ScheduleProduct; simp [hbeq, hv], ?_, ?_⟩
  · unfold productRegs
    simp only [List.filter_append, hnoPid, List.nil_append, List.filter_cons, List.filter_nil,
      beq_self_eq_true, if_true, List.flatMap_cons, List.flatMap_nil, List.append_nil]
    simp [hcronFilter]
  · obtain ⟨hk, hi, hb1, hb2⟩ := hwfR
    refine ⟨?_, ?_, ?_, ?_⟩
    · rw [List.map_append, List.nodup_append]
      refine ⟨hk, by simp, ?_⟩
      intro a ha hb
      simp only [List.map_cons, List.map_nil, List.mem_singleton] at hb
      subst hb
      obtain ⟨kv, hkv, hfst⟩ := List.mem_map.mp ha
      have := hpidNotMem kv hkv
      rw [hfst] at this
      simp at this
    · rw [List.map_append, List.nodup_append]
      refine ⟨hi, by simp, ?_⟩
      intro a ha hb
      simp only [List.map_cons, List.map_nil, List.mem_singleton] at hb
      subst hb
      obtain ⟨c, hc, hid⟩ := List.mem_map.mp ha
      have := hfreshCron c hc
      rw [hid] at this
      simp at this
    · intro c hc
      rcases List.mem_append.mp hc with h | h
      · exact Nat.lt_succ_of_lt (hb1 c h)
      · simp only [List.mem_singleton] at h
        subst h
        exact Nat.lt_succ_self _
    · intro kv hkv
      rcases List.mem_append.mp hkv with h | h
      · exact Nat.lt_succ_of_lt (hb2 kv h)
      · simp only [List.mem_singleton] at h
        subst h
        exact Nat.lt_succ_self _

theorem scheduleProduct_empty (valid : String → Bool) (pid : String) (st : SchedulerReg)
    (hwf : st.wf) :
    ScheduleProduct valid pid "" st = Except.ok (removeProductReg pid st) ∧
    productRegs (removeProductReg pid st) pid = [] ∧ (removeProductReg pid st).wf := by
  refine ⟨by unfold ScheduleProduct; simp, ?_, removeProductReg_wf hwf⟩
  unfold productRegs
  rw [removeProductReg_no_pid]
  rfl

/-- Claim C9: the registry keeps at most one trigger per product id.  From any
well-formed registry, scheduling a product twice with different (valid,
non-empty) expressions leaves exactly one active registration, carrying the
second expression; a subsequent call with an empty expression leaves the
product with no active registration. -/
theorem scheduleProduct_latest_single (valid : String → Bool) (pid e1 e2 : String)
    (st : SchedulerReg) (hwf : st.wf) (h1 : valid e1 = true) (h2 : valid e2 = true)
    (hne1 : e1 ≠ "") (hne2 : e2 ≠ "") :
    ∃ st1 st2 st3,
      ScheduleProduct valid pid e1 st = Except.ok st1 ∧
      ScheduleProduct valid pid e2 st1 = Except.ok st2 ∧
      productRegs st2 pid = [e2] ∧
      ScheduleProduct valid pid "" st2 = Except.ok st3 ∧
      productRegs st3 pid = [] := by
  obtain ⟨st1, hs1, _, hwf1⟩ := scheduleProduct_nonempty valid pid e1 st hwf h1 hne1
  obtain ⟨st2, hs2, hregs2, hwf2⟩ := scheduleProduct_nonempty valid pid e2 st1 hwf1 h2 hne2
  obtain ⟨hs3, hregs3, _⟩ := scheduleProduct_empty valid pid st2 hwf2
  exact ⟨st1, st2, _, hs1, hs2, hregs2, hs3, hregs3⟩

/-- Witness for C9: from the empty registry, scheduling product `P` with
`0 6 * * *` then `0 7 * * *` (both accepted by the expression parser) leaves
exactly the latter registered; re-scheduling with `""` clears it. -/
theorem scheduleProduct_latest_single_witness :
    SchedulerReg.wf { cronEntries := [], nextEntryID := 0, entryIDs := [] } ∧
    ("0 6 * * *" : String) ≠ "" ∧
    ∃ st1 st2 st3,
      ScheduleProduct (fun _ => true) "P" "0 6 * * *"
          { cronEntries := [], nextEntryID := 0, entryIDs := [] } = Except.ok st1 ∧
      ScheduleProduct (fun _ => true) "P" "0 7 * * *" st1 = Except.ok st2 ∧
      productRegs st2 "P" = ["0 7 * * *"] ∧
      ScheduleProduct (fun _ => true) "P" "" st2 = Except.ok st3 ∧
      productRegs st3 "P" = [] := by
  refine ⟨⟨by simp, by simp, by simp, by simp⟩, by decide, ?_⟩
  exact scheduleProduct_latest_single (fun _ => true) "P" "0 6 * * *" "0 7 * * *"
    { cronEntries := [], nextEntryID := 0, entryIDs := [] }
    ⟨by simp, by simp, by simp, by simp⟩ rfl rfl (by decide) (by decide)

/-! Supporting lemmas for the downloader (C2-C5). -/

theorem find_key_filter_ne (l : Fs) (p q : String) (h : q ≠ p) :
    List.find? (fun e => e.1 == q) (List.filter (fun e => e.1 != p) l) =
    List.find? (fun e => e.1 == q) l := by
  induction l with
  | nil => rfl
  | cons x xs ih =>
      by_cases hx : x.1 = p
      · rw [List.filter_cons_of_neg (by simp [hx]),
            List.find?_cons_of_neg _ (by simp [hx, Ne.symm h]), ih]
      · rw [List.filter_cons_of_pos (by simp [hx])]
        by_cases hq : x.1 = q
        · rw [List.find?_cons_of_pos _ (by simp [hq]), List.find?_cons_of_pos _ (by simp [hq])]
        · rw [List.find?_cons_of_neg _ (by simp [hq]), List.find?_cons_of_neg _ (by simp [hq]),
              ih]

theorem Fs.read_write_self (fs : Fs) (p : String) (bs : List Nat) :
    (fs.write p bs).read p = some bs := by
  unfold Fs.read Fs.write
  simp

theorem Fs.read_write_ne (fs : Fs) (p q : String) (bs : List Nat) (h : q ≠ p) :
    (fs.write p bs).read q = fs.read q := by
  unfold Fs.read Fs.write
  rw [List.find?_cons_of_neg _ (by simpa using Ne.symm h)]
  rw [find_key_filter_ne fs p q h]

theorem Fs.read_remove_self (fs : Fs) (p : String) : (fs.remove p).read p = none := by
  have hnone : List.find? (fun e => e.1 == p) (List.filter (fun e => e.1 != p) fs) = none :=
    List.find?_eq_none.mpr (fun x hx => by simpa using (List.mem_filter.mp hx).2)
  unfold Fs.read Fs.remove
  rw [hnone]
  rfl

theorem Fs.read_remove_ne (fs : Fs) (p q : String) (h : q ≠ p) :
    (fs.remove p).read q = fs.read q := by
  unfold Fs.read Fs.remove
  rw [find_key_filter_ne fs p q h]

theorem append_tmp_ne (p : String) : p ++ ".tmp" ≠ p := by
  intro h
  have hlen := congrArg String.length h
  rw [String.length_append] at hlen
  have h4 : (".tmp" : String).length = 4 := rfl
  rw [h4] at hlen
  omega

theorem saveEntry_append (base : List DownloadEntry) (e e' : DownloadEntry)
    (hid : e'.id = e.id) (hfresh : ∀ x ∈ base, x.id ≠ e.id) :
    saveEntry (base ++ [e]) e' = base ++ [e'] := by
  unfold saveEntry
  rw [List.map_append]
  congr 1
  · rw [List.map_congr_left (g := id) ?_, List.map_id]
    intro x hx
    have hne : x.id ≠ e'.id := by rw [hid]; exact hfresh x hx
    exact if_neg hne
  · simp [hid]

theorem applyProgress_foldl_invariant (fid : String) (pcs : List (Int × Int))
    (e : DownloadEntry) (st : DownloaderState) :
    (pcs.foldl (applyProgress fid) (e, st)).2.events = st.events ∧
    (pcs.foldl (applyProgress fid) (e, st)).2.fs = st.fs ∧
    (pcs.foldl (applyProgress fid) (e, st)).2.fsOps = st.fsOps ∧
    (pcs.foldl (applyProgress fid) (e, st)).2.activeIDs = st.activeIDs ∧
    (pcs.foldl (applyProgress fid) (e, st)).2.nextEntryID = st.nextEntryID := by
  induction pcs generalizing e st with
  | nil => exact ⟨rfl, rfl, rfl, rfl, rfl⟩
  | cons pc rest ih =>
      simp only [List.foldl_cons]
      exact ih _ _

theorem applyProgress_foldl_entry (fid : String) (pcs : List (Int × Int))
    (e : DownloadEntry) (st : DownloaderState) :
    ∃ p t, (pcs.foldl (applyProgress fid) (e, st)).1 =
      { e with progress := p, totalBytes := t } := by
  induction pcs generalizing e st with
  | nil => exact ⟨e.progress, e.totalBytes, rfl⟩
  | cons pc rest ih =>
      simp only [List.foldl_cons]
      obtain ⟨p, t, hp⟩ := ih { e with progress := pc.1, totalBytes := pc.2 }
        (applyProgress fid (e, st) pc).2
      exact ⟨p, t, hp⟩

theorem applyProgress_foldl_entries (fid : String) (pcs : List (Int × Int))
    (e : DownloadEntry) (st : DownloaderState) (base : List DownloadEntry)
    (hents : st.entries = base ++ [e])
    (hfresh : ∀ x ∈ base, x.id ≠ e.id) :
    (pcs.foldl (applyProgress fid) (e, st)).2.entries =
      base ++ [(pcs.foldl (applyProgress fid) (e, st)).1] := by
  induction pcs generalizing e st with
  | nil => simpa using hents
  | cons pc rest ih =>
      simp only [List.foldl_cons]
      apply ih
      · show (applyProgress fid (e, st) pc).2.entries = base ++ [_]
        simp only [applyProgress]
        rw [hents]
        exact saveEntry_append base e _ rfl hfresh
      · exact hfresh

/-- Claim C4: if the context is cancelled (or its timeout fires) while the call is
still waiting for a semaphore slot, `Download` returns that context error
with the shared state untouched: no DownloadEntry row, no event, no progress
registration, no filesystem effect. -/
theorem download_wait_abort_no_mutation
    (cfg : Config) (c : DownloadCall) (st : DownloaderState) (file : DBFile)
    (hactive : st.activeIDs.contains c.fileID = false)
    (hfile : c.dbFile = some file)
    (hreg : c.adapterRegistered = true)
    (hslot : c.slotAvailableFirst = false) :
    downloadRun cfg c st = (DownloadResult.errCtx c.waitCtxErr, st) := by
  unfold downloadRun
  rw [hactive, hfile, hreg, hslot]
  rfl

/-- Witness for C4: concrete idle state, the wait loses to the context. -/
theorem download_wait_abort_no_mutation_witness :
    cexSt.activeIDs.contains cexWaitCall.fileID = false ∧
    cexWaitCall.dbFile = some cexFile ∧
    cexWaitCall.adapterRegistered = true ∧
    cexWaitCall.slotAvailableFirst = false ∧
    downloadRun cexCfg cexWaitCall cexSt = (DownloadResult.errCtx cexWaitCall.waitCtxErr, cexSt) :=
  ⟨rfl, rfl, rfl, rfl,
   download_wait_abort_no_mutation cexCfg cexWaitCall cexSt cexFile rfl rfl rfl rfl⟩

set_option maxHeartbeats 1000000

/-- Success branch of the transfer (downloader.go lines 103-176, adapter and
rename succeeding): the created entry is finalized as completed with the
`sha256:`-prefixed hex digest of the streamed bytes, the bytes land at the
final path, and a `download.completed` event is appended. -/
theorem downloadTransfer_success
    (cfg : Config) (c : DownloadCall) (file : DBFile) (entry0 : DownloadEntry)
    (st : DownloaderState) (base : List DownloadEntry)
    (hmkdir : c.mkdirOk = true) (hcreate : c.createTempOk = true)
    (houtcome : c.outcome = AdapterOutcome.success) (hrename : c.renameOk = true)
    (hents : st.entries = base ++ [entry0]) (hfresh : ∀ x ∈ base, x.id ≠ entry0.id) :
    (downloadTransfer cfg c file entry0 st).1 = DownloadResult.ok ∧
    ∃ entry : DownloadEntry,
      (downloadTransfer cfg c file entry0 st).2.entries = base ++ [entry] ∧
      entry.id = entry0.id ∧
      entry.fileID = entry0.fileID ∧
      entry.status = DownloadStatus.completed ∧
      entry.localPath = getDownloadPath cfg file ∧
      entry.localChecksum = "sha256:" ++ sha256Hex c.adapterBytes ∧
      (downloadTransfer cfg c file entry0 st).2.fs.read (getDownloadPath cfg file) =
        some c.adapterBytes ∧
      (downloadTransfer cfg c file entry0 st).2.events = st.events ++
        [(NewEvent EventDownloadCompleted file.sourceID).withFile file.id file.fileName
          file.fileSize ("sha256:" ++ sha256Hex c.adapterBytes) (getDownloadPath cfg file)] := by
  unfold downloadTransfer
  rw [hmkdir, hcreate, houtcome, hrename]
  simp only [Bool.not_true, Bool.false_eq_true, if_false, ite_false]
  generalize hMid : ({ st with fs := (st.fs.write (getDownloadPath cfg file ++ ".tmp") []).write (getDownloadPath cfg file ++ ".tmp") c.adapterBytes, fsOps := st.fsOps ++ [FsOp.mkdirAll (parentDir (getDownloadPath cfg file))] ++ [FsOp.createFile (getDownloadPath cfg file ++ ".tmp")] ++ [FsOp.writeBytes (getDownloadPath cfg file ++ ".tmp") c.adapterBytes], progressOps := st.progressOps ++ [ProgressOp.start c.fileID file.fileName file.fileSize] } : DownloaderState) = stMid
  have hfsMid : stMid.fs = (st.fs.write (getDownloadPath cfg file ++ ".tmp") []).write
      (getDownloadPath cfg file ++ ".tmp") c.adapterBytes := by rw [← hMid]
  have hevMid : stMid.events = st.events := by rw [← hMid]
  have hentsMid : stMid.entries = base ++ [entry0] := by rw [← hMid]; exact hents
  obtain ⟨p, t, hfold1⟩ := applyProgress_foldl_entry c.fileID c.progressCalls entry0 stMid
  have hinv := applyProgress_foldl_invariant c.fileID c.progressCalls entry0 stMid
  have hentries := applyProgress_foldl_entries c.fileID c.progressCalls entry0 stMid base
    hentsMid hfresh
  refine ⟨trivial, ?_⟩
  rw [hentries, hfold1, hinv.1, hinv.2.1, hfsMid, hevMid]
  have hren : (((st.fs.write (getDownloadPath cfg file ++ ".tmp") []).write
        (getDownloadPath cfg file ++ ".tmp") c.adapterBytes).rename
        (getDownloadPath cfg file ++ ".tmp") (getDownloadPath cfg file)) =
      ((((st.fs.write (getDownloadPath cfg file ++ ".tmp") []).write
        (getDownloadPath cfg file ++ ".tmp") c.adapterBytes).remove
        (getDownloadPath cfg file ++ ".tmp")).write (getDownloadPath cfg file) c.adapterBytes) := by
    unfold Fs.rename
    rw [Fs.read_write_self]
  rw [hren, Fs.read_write_self]
  refine ⟨{ entry0 with progress := p, totalBytes := t, status := DownloadStatus.completed, localPath := getDownloadPath cfg file, localChecksum := "sha256:" ++ sha256Hex c.adapterBytes }, ?_, rfl, rfl, rfl, rfl, rfl, rfl, rfl⟩
  exact saveEntry_append base { entry0 with progress := p, totalBytes := t } _ rfl hfresh
/-- Claim C2 (amended): on a fully successful download the recorded checksum
is `sha256:<hex>` — the algorithm label is always `sha256`, independent of the
file's declared checksum algorithm — where `<hex>` is the SHA-256 digest of
exactly the bytes present at the final path after the rename; the same string
is carried in the `download.completed` event. -/
theorem download_success_checksum_roundtrip
    (cfg : Config) (c : DownloadCall) (st : DownloaderState) (file : DBFile)
    (hactive : st.activeIDs.contains c.fileID = false)
    (hfile : c.dbFile = some file)
    (hreg : c.adapterRegistered = true)
    (hslot : c.slotAvailableFirst = true)
    (hmkdir : c.mkdirOk = true)
    (hcreate : c.createTempOk = true)
    (houtcome : c.outcome = AdapterOutcome.success)
    (hrename : c.renameOk = true)
    (hfresh : ∀ x ∈ st.entries, x.id ≠ st.nextEntryID) :
    (downloadRun cfg c st).1 = DownloadResult.ok ∧
    ∃ entry : DownloadEntry,
      (downloadRun cfg c st).2.entries = st.entries ++ [entry] ∧
      entry.status = DownloadStatus.completed ∧
      entry.fileID = c.fileID ∧
      entry.localPath = getDownloadPath cfg file ∧
      entry.localChecksum = "sha256:" ++ sha256Hex c.adapterBytes ∧
      (downloadRun cfg c st).2.fs.read (getDownloadPath cfg file) = some c.adapterBytes ∧
      (downloadRun cfg c st).2.events = st.events ++
        [(NewEvent EventDownloadStarted file.sourceID).withFile file.id file.fileName file.fileSize "" "",
         (NewEvent EventDownloadCompleted file.sourceID).withFile file.id file.fileName file.fileSize ("sha256:" ++ sha256Hex c.adapterBytes) (getDownloadPath cfg file)] := by
  unfold downloadRun
  rw [hactive, hfile, hreg, hslot]
  simp only [Bool.not_true, Bool.false_eq_true, if_false, ite_false]
  obtain ⟨h1, entry, he, hid2, hfid, hstat, hpath, hsum, hread, hev⟩ :=
    downloadTransfer_success cfg c file
      { id := st.nextEntryID, fileID := c.fileID, status := DownloadStatus.downloading }
      ({ st with entries := st.entries ++ [{ id := st.nextEntryID, fileID := c.fileID, status := DownloadStatus.downloading }], nextEntryID := st.nextEntryID + 1, events := st.events ++ [(NewEvent EventDownloadStarted file.sourceID).withFile file.id file.fileName file.fileSize "" ""] })
      st.entries hmkdir hcreate houtcome hrename rfl hfresh
  refine ⟨h1, entry, he, hstat, hfid, hpath, hsum, hread, ?_⟩
  rw [hev]
  simp [List.append_assoc]
/-- Failure branch of the transfer (downloader.go lines 143-151): the temp
file is removed; a `context.Canceled` context error routes to
`handleCancelled`, every other failure — including a deadline-exceeded
timeout — routes to `handleError`. -/
theorem downloadTransfer_failure
    (cfg : Config) (c : DownloadCall) (file : DBFile) (entry0 : DownloadEntry)
    (st : DownloaderState) (base : List DownloadEntry) (msg : String) (ctxErr : Option CtxErr)
    (hmkdir : c.mkdirOk = true) (hcreate : c.createTempOk = true)
    (houtcome : c.outcome = AdapterOutcome.failure msg ctxErr)
    (hents : st.entries = base ++ [entry0]) (hfresh : ∀ x ∈ base, x.id ≠ entry0.id) :
    ∃ entry : DownloadEntry,
      (downloadTransfer cfg c file entry0 st).2.entries = base ++ [entry] ∧
      entry.id = entry0.id ∧
      entry.fileID = entry0.fileID ∧
      (downloadTransfer cfg c file entry0 st).2.fs.read (getDownloadPath cfg file ++ ".tmp") =
        none ∧
      (ctxErr = some CtxErr.canceled →
        (downloadTransfer cfg c file entry0 st).1 = DownloadResult.errCtx CtxErr.canceled ∧
        entry.status = DownloadStatus.cancelled ∧
        (downloadTransfer cfg c file entry0 st).2.events = st.events ++
          [(NewEvent EventDownloadCancelled file.sourceID).withFile file.id file.fileName
            file.fileSize "" ""]) ∧
      (ctxErr ≠ some CtxErr.canceled →
        (downloadTransfer cfg c file entry0 st).1 =
          DownloadResult.errWrapped ("Download failed" ++ ": " ++ msg) ∧
        entry.status = DownloadStatus.failed ∧
        entry.errorMessage = "Download failed" ++ ": " ++ msg ∧
        (downloadTransfer cfg c file entry0 st).2.events = st.events ++
          [((NewEvent EventDownloadFailed file.sourceID).withFile file.id file.fileName
            file.fileSize "" "").withError "DOWNLOAD_ERROR" ("Download failed" ++ ": " ++ msg)]) := by
  unfold downloadTransfer
  rw [hmkdir, hcreate, houtcome]
  simp only [Bool.not_true, Bool.false_eq_true, if_false, ite_false]
  generalize hMid : ({ st with fs := (st.fs.write (getDownloadPath cfg file ++ ".tmp") []).write (getDownloadPath cfg file ++ ".tmp") c.adapterBytes, fsOps := st.fsOps ++ [FsOp.mkdirAll (parentDir (getDownloadPath cfg file))] ++ [FsOp.createFile (getDownloadPath cfg file ++ ".tmp")] ++ [FsOp.writeBytes (getDownloadPath cfg file ++ ".tmp") c.adapterBytes], progressOps := st.progressOps ++ [ProgressOp.start c.fileID file.fileName file.fileSize] } : DownloaderState) = stMid
  have hevMid : stMid.events = st.events := by rw [← hMid]
  have hentsMid : stMid.entries = base ++ [entry0] := by rw [← hMid]; exact hents
  obtain ⟨p, t, hfold1⟩ := applyProgress_foldl_entry c.fileID c.progressCalls entry0 stMid
  have hinv := applyProgress_foldl_invariant c.fileID c.progressCalls entry0 stMid
  have hentries := applyProgress_foldl_entries c.fileID c.progressCalls entry0 stMid base
    hentsMid hfresh
  by_cases hc : ctxErr = some CtxErr.canceled
  · rw [if_pos hc]
    unfold handleCancelled
    refine ⟨{ entry0 with progress := p, totalBytes := t, status := DownloadStatus.cancelled },
      ?_, rfl, rfl, ?_, fun _ => ⟨rfl, rfl, ?_⟩, fun hne => absurd hc hne⟩
    · rw [hentries, hfold1]
      exact saveEntry_append base { entry0 with progress := p, totalBytes := t } _ rfl hfresh
    · rw [hinv.2.1]
      exact Fs.read_remove_self _ _
    · rw [hinv.1, hevMid]
  · rw [if_neg hc]
    unfold handleError
    refine ⟨{ entry0 with progress := p, totalBytes := t, status := DownloadStatus.failed, errorMessage := "Download failed" ++ ": " ++ msg },
      ?_, rfl, rfl, ?_, fun hceq => absurd hceq hc, fun _ => ⟨rfl, rfl, rfl, ?_⟩⟩
    · rw [hentries, hfold1]
      exact saveEntry_append base { entry0 with progress := p, totalBytes := t } _ rfl hfresh
    · rw [hinv.2.1]
      exact Fs.read_remove_self _ _
    · rw [hinv.1, hevMid]
/-- Claim C3 (amended): when the adapter call fails, the entry is marked
"cancelled" with a `download.cancelled` event exactly when the context error
is `context.Canceled`; any other failure — including `context.DeadlineExceeded`
from the configured timeout — marks the entry "failed" with the captured
error text and emits `download.failed`. -/
theorem download_cancel_vs_timeout
    (cfg : Config) (c : DownloadCall) (st : DownloaderState) (file : DBFile)
    (msg : String) (ctxErr : Option CtxErr)
    (hactive : st.activeIDs.contains c.fileID = false)
    (hfile : c.dbFile = some file)
    (hreg : c.adapterRegistered = true)
    (hslot : c.slotAvailableFirst = true)
    (hmkdir : c.mkdirOk = true)
    (hcreate : c.createTempOk = true)
    (houtcome : c.outcome = AdapterOutcome.failure msg ctxErr)
    (hfresh : ∀ x ∈ st.entries, x.id ≠ st.nextEntryID) :
    ∃ entry : DownloadEntry,
      (downloadRun cfg c st).2.entries = st.entries ++ [entry] ∧
      entry.fileID = c.fileID ∧
      (downloadRun cfg c st).2.fs.read (getDownloadPath cfg file ++ ".tmp") = none ∧
      (ctxErr = some CtxErr.canceled →
        (downloadRun cfg c st).1 = DownloadResult.errCtx CtxErr.canceled ∧
        entry.status = DownloadStatus.cancelled ∧
        (downloadRun cfg c st).2.events = st.events ++
          [(NewEvent EventDownloadStarted file.sourceID).withFile file.id file.fileName file.fileSize "" "",
           (NewEvent EventDownloadCancelled file.sourceID).withFile file.id file.fileName file.fileSize "" ""]) ∧
      (ctxErr ≠ some CtxErr.canceled →
        (downloadRun cfg c st).1 = DownloadResult.errWrapped ("Download failed" ++ ": " ++ msg) ∧
        entry.status = DownloadStatus.failed ∧
        entry.errorMessage = "Download failed" ++ ": " ++ msg ∧
        (downloadRun cfg c st).2.events = st.events ++
          [(NewEvent EventDownloadStarted file.sourceID).withFile file.id file.fileName file.fileSize "" "",
           ((NewEvent EventDownloadFailed file.sourceID).withFile file.id file.fileName file.fileSize "" "").withError "DOWNLOAD_ERROR" ("Download failed" ++ ": " ++ msg)]) := by
  unfold downloadRun
  rw [hactive, hfile, hreg, hslot]
  simp only [Bool.not_true, Bool.false_eq_true, if_false, ite_false]
  obtain ⟨entry, he, hid, hfid, htmp, hcanc, hfail⟩ :=
    downloadTransfer_failure cfg c file
      { id := st.nextEntryID, fileID := c.fileID, status := DownloadStatus.downloading }
      ({ st with entries := st.entries ++ [{ id := st.nextEntryID, fileID := c.fileID, status := DownloadStatus.downloading }], nextEntryID := st.nextEntryID + 1, events := st.events ++ [(NewEvent EventDownloadStarted file.sourceID).withFile file.id file.fileName file.fileSize "" ""] })
      st.entries msg ctxErr hmkdir hcreate houtcome rfl hfresh
  refine ⟨entry, he, hfid, htmp, ?_, ?_⟩
  · intro hc
    obtain ⟨hr, hs, hev⟩ := hcanc hc
    refine ⟨hr, hs, ?_⟩
    rw [hev]
    simp [List.append_assoc]
  · intro hc
    obtain ⟨hr, hs, herr, hev⟩ := hfail hc
    refine ⟨hr, hs, herr, ?_⟩
    rw [hev]
    simp [List.append_assoc]
/-- Every non-ok exit of the transfer leaves the final path as it was,
leaves no temp file written by this attempt, and performs no rename. -/
theorem downloadTransfer_no_final_on_error
    (cfg : Config) (c : DownloadCall) (file : DBFile) (entry0 : DownloadEntry)
    (st : DownloaderState)
    (hres : (downloadTransfer cfg c file entry0 st).1 ≠ DownloadResult.ok) :
    (downloadTransfer cfg c file entry0 st).2.fs.read (getDownloadPath cfg file) =
      st.fs.read (getDownloadPath cfg file) ∧
    ((downloadTransfer cfg c file entry0 st).2.fs.read (getDownloadPath cfg file ++ ".tmp") =
        none ∨
     (downloadTransfer cfg c file entry0 st).2.fs.read (getDownloadPath cfg file ++ ".tmp") =
        st.fs.read (getDownloadPath cfg file ++ ".tmp")) ∧
    (∀ src dst, FsOp.renameFile src dst ∈ (downloadTransfer cfg c file entry0 st).2.fsOps →
      FsOp.renameFile src dst ∈ st.fsOps) := by
  have htne : getDownloadPath cfg file ++ ".tmp" ≠ getDownloadPath cfg file :=
    append_tmp_ne _
  have hfne : getDownloadPath cfg file ≠ getDownloadPath cfg file ++ ".tmp" :=
    Ne.symm htne
  unfold downloadTransfer at hres ⊢
  cases hm : c.mkdirOk with
  | false =>
      simp only [hm, Bool.not_false, if_true, ite_true] at hres ⊢
      unfold handleError
      refine ⟨rfl, Or.inr rfl, ?_⟩
      intro src dst hmem
      simp only [List.mem_append, List.mem_singleton] at hmem
      rcases hmem with h | h
      · exact h
      · exact absurd h (by simp)
  | true =>
  cases hct : c.createTempOk with
  | false =>
      simp only [hm, hct, Bool.not_true, Bool.not_false, Bool.false_eq_true, if_false, if_true,
        ite_true, ite_false] at hres ⊢
      unfold handleError
      refine ⟨rfl, Or.inr rfl, ?_⟩
      intro src dst hmem
      simp only [List.mem_append, List.mem_singleton] at hmem
      rcases hmem with h | h
      · exact h
      · exact absurd h (by simp)
  | true =>
  simp only [hm, hct, Bool.not_true, Bool.false_eq_true, if_false, ite_false] at hres ⊢
  generalize hMid : ({ st with fs := (st.fs.write (getDownloadPath cfg file ++ ".tmp") []).write (getDownloadPath cfg file ++ ".tmp") c.adapterBytes, fsOps := st.fsOps ++ [FsOp.mkdirAll (parentDir (getDownloadPath cfg file))] ++ [FsOp.createFile (getDownloadPath cfg file ++ ".tmp")] ++ [FsOp.writeBytes (getDownloadPath cfg file ++ ".tmp") c.adapterBytes], progressOps := st.progressOps ++ [ProgressOp.start c.fileID file.fileName file.fileSize] } : DownloaderState) = stMid at hres ⊢
  have hfsMid : stMid.fs = (st.fs.write (getDownloadPath cfg file ++ ".tmp") []).write
      (getDownloadPath cfg file ++ ".tmp") c.adapterBytes := by rw [← hMid]
  have hopsMid : stMid.fsOps = st.fsOps ++ [FsOp.mkdirAll (parentDir (getDownloadPath cfg file))] ++ [FsOp.createFile (getDownloadPath cfg file ++ ".tmp")] ++ [FsOp.writeBytes (getDownloadPath cfg file ++ ".tmp") c.adapterBytes] := by rw [← hMid]
  have hinv := applyProgress_foldl_invariant c.fileID c.progressCalls entry0 stMid
  have hreadFinal : stMid.fs.read (getDownloadPath cfg file) =
      st.fs.read (getDownloadPath cfg file) := by
    rw [hfsMid, Fs.read_write_ne _ _ _ _ hfne, Fs.read_write_ne _ _ _ _ hfne]
  have hopsNoRename : ∀ src dst, FsOp.renameFile src dst ∈ stMid.fsOps →
      FsOp.renameFile src dst ∈ st.fsOps := by
    intro src dst hmem
    rw [hopsMid] at hmem
    simp only [List.mem_append, List.mem_singleton] at hmem
    rcases hmem with ((h | h) | h) | h
    · exact h
    · exact absurd h (by simp)
    · exact absurd h (by simp)
    · exact absurd h (by simp)
  cases ho : c.outcome with
  | failure msg ctxErr =>
      simp only [ho] at hres ⊢
      by_cases hc : ctxErr = some CtxErr.canceled
      · rw [if_pos hc]
        unfold handleCancelled
        refine ⟨?_, Or.inl ?_, ?_⟩
        · rw [hinv.2.1, Fs.read_remove_ne _ _ _ hfne, hreadFinal]
        · rw [hinv.2.1]
          exact Fs.read_remove_self _ _
        · intro src dst hmem
          rw [hinv.2.2.1] at hmem
          simp only [List.mem_append, List.mem_singleton] at hmem
          rcases hmem with h | h
          · exact hopsNoRename src dst h
          · exact absurd h (by simp)
      · rw [if_neg hc]
        unfold handleError
        refine ⟨?_, Or.inl ?_, ?_⟩
        · rw [hinv.2.1, Fs.read_remove_ne _ _ _ hfne, hreadFinal]
        · rw [hinv.2.1]
          exact Fs.read_remove_self _ _
        · intro src dst hmem
          rw [hinv.2.2.1] at hmem
          simp only [List.mem_append, List.mem_singleton] at hmem
          rcases hmem with h | h
          · exact hopsNoRename src dst h
          · exact absurd h (by simp)
  | success =>
      cases hrn : c.renameOk with
      | true => simp [ho, hrn] at hres
      | false =>
          simp only [ho, hrn, Bool.not_false, if_true, ite_true] at hres ⊢
          unfold handleError
          refine ⟨?_, Or.inl ?_, ?_⟩
          · rw [hinv.2.1, Fs.read_remove_ne _ _ _ hfne, hreadFinal]
          · rw [hinv.2.1]
            exact Fs.read_remove_self _ _
          · intro src dst hmem
            rw [hinv.2.2.1] at hmem
            simp only [List.mem_append, List.mem_singleton] at hmem
            rcases hmem with h | h
            · exact hopsNoRename src dst h
            · exact absurd h (by simp)
/-- Claim C5: a download that fails or is cancelled before completion never
leaves a file at the final path — the content at the final path is exactly
what was there before the call, the `.tmp` sibling created by the attempt is
removed, and no rename is ever performed on a non-success path. -/
theorem download_failure_never_leaves_final
    (cfg : Config) (c : DownloadCall) (st : DownloaderState) (file : DBFile)
    (hfile : c.dbFile = some file)
    (hres : (downloadRun cfg c st).1 ≠ DownloadResult.ok) :
    (downloadRun cfg c st).2.fs.read (getDownloadPath cfg file) =
      st.fs.read (getDownloadPath cfg file) ∧
    ((downloadRun cfg c st).2.fs.read (getDownloadPath cfg file ++ ".tmp") = none ∨
     (downloadRun cfg c st).2.fs.read (getDownloadPath cfg file ++ ".tmp") =
       st.fs.read (getDownloadPath cfg file ++ ".tmp")) ∧
    (∀ src dst, FsOp.renameFile src dst ∈ (downloadRun cfg c st).2.fsOps →
      FsOp.renameFile src dst ∈ st.fsOps) := by
  unfold downloadRun at hres ⊢
  rw [hfile] at hres ⊢
  cases ha : st.activeIDs.contains c.fileID with
  | true =>
      simp only [ha, if_true, ite_true]
      exact ⟨trivial, Or.inr trivial, fun _ _ h => h⟩
  | false =>
  cases hr : c.adapterRegistered with
  | false =>
      simp only [ha, hr, Bool.not_false, Bool.false_eq_true, if_false, if_true, ite_true,
        ite_false]
      exact ⟨trivial, Or.inr trivial, fun _ _ h => h⟩
  | true =>
  cases hs : c.slotAvailableFirst with
  | false =>
      simp only [ha, hr, hs, Bool.not_true, Bool.not_false, Bool.false_eq_true, if_false,
        if_true, ite_true, ite_false]
      exact ⟨trivial, Or.inr trivial, fun _ _ h => h⟩
  | true =>
  simp only [ha, hr, hs, Bool.not_true, Bool.false_eq_true, if_false, ite_false] at hres ⊢
  exact downloadTransfer_no_final_on_error cfg c file _ _ hres
set_option maxRecDepth 100000
/-- Witness for C2 at the concrete fixtures: the adapter streams three
bytes and the recorded checksum is their SHA-256 digest. -/
theorem download_success_checksum_roundtrip_witness :
    (downloadRun cexCfg cexCall cexSt).1 = DownloadResult.ok ∧
    ∃ entry : DownloadEntry,
      (downloadRun cexCfg cexCall cexSt).2.entries = cexSt.entries ++ [entry] ∧
      entry.status = DownloadStatus.completed ∧
      entry.fileID = cexCall.fileID ∧
      entry.localPath = getDownloadPath cexCfg cexFile ∧
      entry.localChecksum = "sha256:" ++ sha256Hex cexCall.adapterBytes ∧
      (downloadRun cexCfg cexCall cexSt).2.fs.read (getDownloadPath cexCfg cexFile) =
        some cexCall.adapterBytes ∧
      (downloadRun cexCfg cexCall cexSt).2.events = cexSt.events ++
        [(NewEvent EventDownloadStarted cexFile.sourceID).withFile cexFile.id cexFile.fileName cexFile.fileSize "" "",
         (NewEvent EventDownloadCompleted cexFile.sourceID).withFile cexFile.id cexFile.fileName cexFile.fileSize ("sha256:" ++ sha256Hex cexCall.adapterBytes) (getDownloadPath cexCfg cexFile)] :=
  download_success_checksum_roundtrip cexCfg cexCall cexSt cexFile rfl rfl rfl rfl rfl rfl rfl
    rfl (fun x hx => absurd hx (List.not_mem_nil x))

/-- Counterexample for C2 as stated: `cexFile` declares checksum algorithm
`md5`, yet the recorded checksum and the completed event's checksum begin
with `sha256:` (downloader.go line 160 hardcodes the prefix), not with the
declared algorithm. -/
theorem download_checksum_algorithm_counterexample :
    cexFile.checksumAlgorithm = "md5" ∧
    cexCall.dbFile = some cexFile ∧
    (downloadRun cexCfg cexCall cexSt).1 = DownloadResult.ok ∧
    (downloadRun cexCfg cexCall cexSt).2.entries.map
      (fun e => e.localChecksum.data.take 7) = ["sha256:".data] ∧
    "sha256:".data ≠ (cexFile.checksumAlgorithm ++ ":").data ∧
    (downloadRun cexCfg cexCall cexSt).2.events.map
      (fun ev => (ev.file.map (fun f => f.checksum.data.take 7)).getD []) =
      [[], "sha256:".data] := by
  refine ⟨rfl, rfl, by decide, by decide, by decide, by decide⟩

/-- Counterexample for C3 as stated: an adapter failure whose context error
is `context.DeadlineExceeded` (the configured timeout elapsing) marks the
entry "failed" and emits `download.failed` — not "cancelled" with
`download.cancelled` as the claim asserts for timeouts. -/
theorem download_timeout_marked_failed_counterexample :
    cexTimeoutCall.outcome =
      AdapterOutcome.failure "context deadline exceeded" (some CtxErr.deadlineExceeded) ∧
    (downloadRun cexCfg cexTimeoutCall cexSt).2.entries.map DownloadEntry.status =
      [DownloadStatus.failed] ∧
    (downloadRun cexCfg cexTimeoutCall cexSt).2.events.map Event.type =
      [EventDownloadStarted, EventDownloadFailed] := by
  refine ⟨rfl, by decide, by decide⟩

/-- Witness for C3 (amended) at the concrete fixtures: a cancelled adapter
call yields a "cancelled" entry and a `download.cancelled` event. -/
theorem download_cancel_vs_timeout_witness :
    ∃ entry : DownloadEntry,
      (downloadRun cexCfg cexCancelCall cexSt).2.entries = cexSt.entries ++ [entry] ∧
      entry.fileID = cexCancelCall.fileID ∧
      (downloadRun cexCfg cexCancelCall cexSt).2.fs.read
        (getDownloadPath cexCfg cexFile ++ ".tmp") = none ∧
      (some CtxErr.canceled = some CtxErr.canceled →
        (downloadRun cexCfg cexCancelCall cexSt).1 = DownloadResult.errCtx CtxErr.canceled ∧
        entry.status = DownloadStatus.cancelled ∧
        (downloadRun cexCfg cexCancelCall cexSt).2.events = cexSt.events ++
          [(NewEvent EventDownloadStarted cexFile.sourceID).withFile cexFile.id cexFile.fileName cexFile.fileSize "" "",
           (NewEvent EventDownloadCancelled cexFile.sourceID).withFile cexFile.id cexFile.fileName cexFile.fileSize "" ""]) := by
  obtain ⟨entry, he, hfid, htmp, hcanc, _⟩ :=
    download_cancel_vs_timeout cexCfg cexCancelCall cexSt cexFile "context canceled"
      (some CtxErr.canceled) rfl rfl rfl rfl rfl rfl rfl
      (fun x hx => absurd hx (List.not_mem_nil x))
  exact ⟨entry, he, hfid, htmp, fun _ => hcanc rfl⟩

/-- Witness for C5 at the concrete fixtures: the timed-out download leaves
the filesystem without the final file and without the temp file. -/
theorem download_failure_never_leaves_final_witness :
    cexTimeoutCall.dbFile = some cexFile ∧
    (downloadRun cexCfg cexTimeoutCall cexSt).1 ≠ DownloadResult.ok ∧
    ((downloadRun cexCfg cexTimeoutCall cexSt).2.fs.read (getDownloadPath cexCfg cexFile) =
      cexSt.fs.read (getDownloadPath cexCfg cexFile) ∧
    ((downloadRun cexCfg cexTimeoutCall cexSt).2.fs.read
        (getDownloadPath cexCfg cexFile ++ ".tmp") = none ∨
     (downloadRun cexCfg cexTimeoutCall cexSt).2.fs.read
        (getDownloadPath cexCfg cexFile ++ ".tmp") =
       cexSt.fs.read (getDownloadPath cexCfg cexFile ++ ".tmp")) ∧
    (∀ src dst,
      FsOp.renameFile src dst ∈ (downloadRun cexCfg cexTimeoutCall cexSt).2.fsOps →
      FsOp.renameFile src dst ∈ cexSt.fsOps)) :=
  ⟨rfl, by decide,
   download_failure_never_leaves_final cexCfg cexTimeoutCall cexSt cexFile rfl (by decide)⟩

theorem ensureDelivery_components (deliveryID productID : String) (info : DeliveryInfo)
    (st : SyncState) :
    (ensureDelivery deliveryID productID info st).files = st.files ∧
    (ensureDelivery deliveryID productID info st).events = st.events ∧
    (ensureDelivery deliveryID productID info st).downloadsStarted = st.downloadsStarted ∧
    (ensureDelivery deliveryID productID info st).products = st.products := by
  unfold ensureDelivery
  split <;> exact ⟨rfl, rfl, rfl, rfl⟩

theorem countFilesWithID_append (l1 l2 : List DBFile) (s : String) :
    countFilesWithID (l1 ++ l2) s = countFilesWithID l1 s + countFilesWithID l2 s := by
  unfold countFilesWithID
  rw [List.filter_append, List.length_append]

theorem syncFile_fresh_components (product : ProductRec) (d : DeliveryInfo) (fi : FileInfo)
    (st : SyncState)
    (hfresh : countFilesWithID st.files (buildFileID product.id d.externalID fi.externalID) = 0) :
    (syncFile product d fi st).files = st.files ++
      [{ id := buildFileID product.id d.externalID fi.externalID,
         deliveryID := buildDeliveryID product.id d.externalID, productID := product.id,
         sourceID := product.sourceID, externalID := fi.externalID, fileName := fi.fileName,
         fileSize := fi.fileSize, expectedChecksum := fi.checksum,
         checksumAlgorithm := fi.checksumAlgorithm, downloadURI := fi.downloadURI }] ∧
    (syncFile product d fi st).events = st.events ++
      [(((NewEvent EventFileAvailable product.sourceID).withProduct product.id
        product.name).withDelivery (buildDeliveryID product.id d.externalID) d.name).withFile
        (buildFileID product.id d.externalID fi.externalID) fi.fileName fi.fileSize fi.checksum ""] ∧
    (syncFile product d fi st).downloadsStarted = st.downloadsStarted ++
      (if product.autoDownload = true
        then [buildFileID product.id d.externalID fi.externalID] else []) ∧
    (syncFile product d fi st).products = st.products := by
  unfold syncFile
  rw [if_neg (by omega)]
  obtain ⟨hf, he, hd, hp⟩ := ensureDelivery_components
    (buildDeliveryID product.id d.externalID) product.id d st
  cases hauto : product.autoDownload with
  | true =>
      simp only [hauto, Bool.true_and, Bool.not_false, if_true, ite_true, hf, he, hd, hp]
      exact ⟨trivial, trivial, trivial, trivial⟩
  | false =>
      simp only [hauto, Bool.false_and, Bool.false_eq_true, if_false, ite_false, hf, he, hd, hp]
      refine ⟨trivial, trivial, ?_, trivial⟩
      simp

theorem syncFile_known_skip (product : ProductRec) (d : DeliveryInfo) (fi : FileInfo)
    (st : SyncState)
    (hknown : countFilesWithID st.files (buildFileID product.id d.externalID fi.externalID) > 0) :
    syncFile product d fi st = st := by
  unfold syncFile
  rw [if_pos hknown]
/-- Closed form of the per-delivery file loop (scheduler.go lines 126-171):
the new rows, `file.available` events, and async download starts are exactly
those of the files whose deterministic id is not yet in the store. -/
theorem syncFiles_foldl_spec (product : ProductRec) (d : DeliveryInfo)
    (fs : List FileInfo) (st : SyncState)
    (hnd : (fs.map (fun fi => buildFileID product.id d.externalID fi.externalID)).Nodup) :
    (fs.foldl (fun s fi => syncFile product d fi s) st).files.map DBFile.id =
      st.files.map DBFile.id ++
      ((fs.filter (fun fi =>
        countFilesWithID st.files (buildFileID product.id d.externalID fi.externalID) == 0)).map
        (fun fi => buildFileID product.id d.externalID fi.externalID)) ∧
    (fs.foldl (fun s fi => syncFile product d fi s) st).events = st.events ++
      ((fs.filter (fun fi =>
        countFilesWithID st.files (buildFileID product.id d.externalID fi.externalID) == 0)).map
        (fun fi => (((NewEvent EventFileAvailable product.sourceID).withProduct product.id
          product.name).withDelivery (buildDeliveryID product.id d.externalID) d.name).withFile
          (buildFileID product.id d.externalID fi.externalID) fi.fileName fi.fileSize fi.checksum "")) ∧
    (fs.foldl (fun s fi => syncFile product d fi s) st).downloadsStarted =
      st.downloadsStarted ++
      (if product.autoDownload = true
        then ((fs.filter (fun fi =>
          countFilesWithID st.files (buildFileID product.id d.externalID fi.externalID) == 0)).map
          (fun fi => buildFileID product.id d.externalID fi.externalID))
        else []) ∧
    (fs.foldl (fun s fi => syncFile product d fi s) st).products = st.products := by
  induction fs generalizing st with
  | nil =>
      refine ⟨?_, ?_, ?_, rfl⟩ <;> simp
  | cons fi rest ih =>
      rw [List.map_cons, List.nodup_cons] at hnd
      obtain ⟨hhead, hndrest⟩ := hnd
      rw [List.foldl_cons]
      by_cases hknown : countFilesWithID st.files
          (buildFileID product.id d.externalID fi.externalID) > 0
      · rw [syncFile_known_skip product d fi st hknown]
        have hpredf : (countFilesWithID st.files
            (buildFileID product.id d.externalID fi.externalID) == 0) = false := by
          simp
          omega
        rw [List.filter_cons_of_neg (by simp [hpredf])]
        exact ih st hndrest
      · have hfresh : countFilesWithID st.files
            (buildFileID product.id d.externalID fi.externalID) = 0 := by omega
        obtain ⟨hf, he, hd, hp⟩ := syncFile_fresh_components product d fi st hfresh
        have hpredt : (countFilesWithID st.files
            (buildFileID product.id d.externalID fi.externalID) == 0) = true := by
          simp [hfresh]
        rw [List.filter_cons_of_pos (by simp [hfresh])]
        obtain ⟨ih1, ih2, ih3, ih4⟩ := ih (syncFile product d fi st) hndrest
        have hcount : ∀ fj ∈ rest,
            countFilesWithID (syncFile product d fi st).files
              (buildFileID product.id d.externalID fj.externalID) =
            countFilesWithID st.files (buildFileID product.id d.externalID fj.externalID) := by
          intro fj hfj
          rw [hf, countFilesWithID_append]
          have hne : (buildFileID product.id d.externalID fi.externalID ==
              buildFileID product.id d.externalID fj.externalID) = false := by
            simp only [beq_eq_false_iff_ne, ne_eq]
            intro hcontra
            exact hhead (hcontra ▸ List.mem_map_of_mem
              (fun fk => buildFileID product.id d.externalID fk.externalID) hfj)
          unfold countFilesWithID
          simp [List.filter_cons, hne]
        have hfilter : rest.filter (fun fj =>
            countFilesWithID (syncFile product d fi st).files
              (buildFileID product.id d.externalID fj.externalID) == 0) =
          rest.filter (fun fj =>
            countFilesWithID st.files (buildFileID product.id d.externalID fj.externalID) == 0) :=
          List.filter_congr (fun fj hfj => by rw [hcount fj hfj])
        refine ⟨?_, ?_, ?_, ?_⟩
        · rw [ih1, hfilter, hf, List.map_append]
          simp [List.append_assoc]
        · rw [ih2, hfilter, he]
          simp [List.append_assoc]
        · rw [ih3, hfilter, hd]
          cases hauto : product.autoDownload with
          | true => simp [hauto, List.append_assoc]
          | false => simp [hauto]
        · rw [ih4, hp]
theorem length_filter_add_length_filter_not {α : Type} (p : α → Bool) (l : List α) :
    (l.filter p).length + (l.filter (fun a => !(p a))).length = l.length := by
  induction l with
  | nil => rfl
  | cons a l ih =>
      cases hpa : p a <;> simp [List.filter_cons, hpa] <;> omega

theorem countFilesWithID_eq_ids (l : List DBFile) (s : String) :
    countFilesWithID l s = ((l.map DBFile.id).filter (fun i => i == s)).length := by
  unfold countFilesWithID
  induction l with
  | nil => rfl
  | cons f l ih =>
      cases h : f.id == s <;> simp [List.filter_cons, h, ih]

/-- Claim C6: sync discovery is idempotent per file identity.  For a sync
run over a delivery whose files carry pairwise-distinct deterministic ids:
exactly N-K new File rows are persisted and exactly N-K `file.available`
events are emitted, where K of the N returned files are already known; and
every already-known file is skipped — its row count is unchanged and no
download (DownloadEntry chain) is started for it. -/
theorem syncProduct_idempotent_discovery
    (productID : String) (st : SyncState) (product : ProductRec)
    (d : DeliveryInfo) (fs : List FileInfo)
    (hfind : st.products.find? (fun p => p.id == productID) = some product)
    (hnd : (fs.map (fun fi => buildFileID product.id d.externalID fi.externalID)).Nodup) :
    (syncProduct productID true (Except.ok [(d, Except.ok fs)]) st).files.length =
      st.files.length + (fs.filter (fun fi =>
        countFilesWithID st.files (buildFileID product.id d.externalID fi.externalID) == 0)).length ∧
    (fs.filter (fun fi =>
        countFilesWithID st.files (buildFileID product.id d.externalID fi.externalID) == 0)).length +
      (fs.filter (fun fi =>
        !(countFilesWithID st.files (buildFileID product.id d.externalID fi.externalID) == 0))).length =
      fs.length ∧
    (((syncProduct productID true (Except.ok [(d, Except.ok fs)]) st).events.drop
        st.events.length).filter (fun ev => ev.type == EventFileAvailable)).length =
      (fs.filter (fun fi =>
        countFilesWithID st.files (buildFileID product.id d.externalID fi.externalID) == 0)).length ∧
    (∀ fi ∈ fs,
      (countFilesWithID st.files (buildFileID product.id d.externalID fi.externalID) == 0) = false →
      countFilesWithID (syncProduct productID true (Except.ok [(d, Except.ok fs)]) st).files
          (buildFileID product.id d.externalID fi.externalID) =
        countFilesWithID st.files (buildFileID product.id d.externalID fi.externalID) ∧
      buildFileID product.id d.externalID fi.externalID ∉
        ((syncProduct productID true (Except.ok [(d, Except.ok fs)]) st).downloadsStarted.drop
          st.downloadsStarted.length)) := by
  obtain ⟨hids, hevs, hdls, hprods⟩ := syncFiles_foldl_spec product d fs st hnd
  unfold syncProduct
  rw [hfind]
  simp only [Bool.not_true, Bool.false_eq_true, if_false, ite_false, List.foldl_cons,
    List.foldl_nil]
  refine ⟨?_, length_filter_add_length_filter_not _ fs, ?_, ?_⟩
  · have h1 := congrArg List.length hids
    rw [List.length_map, List.length_append, List.length_map, List.length_map] at h1
    exact h1
  · rw [hevs, List.append_assoc, List.drop_left, List.filter_append, List.filter_map]
    simp [NewEvent, Event.withProduct, Event.withDelivery, Event.withFile,
      EventFileAvailable, EventSyncCompleted]
  · intro fi hfi hknown
    have hAnotin : ∀ b ∈ (fs.filter (fun fj =>
        countFilesWithID st.files (buildFileID product.id d.externalID fj.externalID) == 0)).map
        (fun fj => buildFileID product.id d.externalID fj.externalID),
        ¬(b == buildFileID product.id d.externalID fi.externalID) = true := by
      intro b hb hbeq
      obtain ⟨fj, hfj, hfjb⟩ := List.mem_map.mp hb
      obtain ⟨hfjmem, hfjfresh⟩ := List.mem_filter.mp hfj
      rw [beq_iff_eq] at hbeq
      have hfij : fj = fi := List.inj_on_of_nodup_map hnd hfjmem hfi (hfjb.trans hbeq ▸ rfl)
      rw [hfij] at hfjfresh
      rw [hfjfresh] at hknown
      exact Bool.true_eq_false ▸ (hknown ▸ rfl)
    constructor
    · rw [countFilesWithID_eq_ids, hids, List.filter_append, List.length_append,
        ← countFilesWithID_eq_ids]
      rw [List.filter_eq_nil_iff.mpr hAnotin]
      rfl
    · rw [hdls, List.drop_left]
      cases hauto : product.autoDownload with
      | true =>
          simp only [hauto, if_true, ite_true]
          intro hmem
          exact hAnotin _ hmem (by simp)
      | false => simp [hauto]
/-- Witness for C6 at the spec's scenario: the adapter returns 3 files of
which 1 is already known; exactly 2 new rows are persisted, exactly 2
`file.available` events are emitted, and downloads start only for the 2 new
files. -/
theorem syncProduct_idempotent_discovery_witness :
    (syncProduct "P" true (Except.ok [(wDel, Except.ok [wFi "f1", wFi "f2", wFi "f3"])])
      wSyncSt).files.length =
      wSyncSt.files.length +
      (([wFi "f1", wFi "f2", wFi "f3"]).filter (fun fi =>
        countFilesWithID wSyncSt.files
          (buildFileID wProd.id wDel.externalID fi.externalID) == 0)).length ∧
    wSyncSt.files.length = 1 ∧
    (([wFi "f1", wFi "f2", wFi "f3"]).filter (fun fi =>
        countFilesWithID wSyncSt.files
          (buildFileID wProd.id wDel.externalID fi.externalID) == 0)).length = 2 ∧
    (syncProduct "P" true (Except.ok [(wDel, Except.ok [wFi "f1", wFi "f2", wFi "f3"])])
      wSyncSt).files.length = 3 ∧
    (((syncProduct "P" true (Except.ok [(wDel, Except.ok [wFi "f1", wFi "f2", wFi "f3"])])
        wSyncSt).events.drop wSyncSt.events.length).filter
      (fun ev => ev.type == EventFileAvailable)).length = 2 ∧
    (syncProduct "P" true (Except.ok [(wDel, Except.ok [wFi "f1", wFi "f2", wFi "f3"])])
      wSyncSt).downloadsStarted = ["P:D1:f2", "P:D1:f3"] :=
  ⟨(syncProduct_idempotent_discovery "P" wSyncSt wProd wDel [wFi "f1", wFi "f2", wFi "f3"]
      rfl (by decide)).1,
   by decide, by decide, by decide, by decide, by decide⟩

end BFL
